import Mathlib

/-
Verification of the MpStats daily collector (src/main.py) against its
specification.  The Python source is shallowly embedded: pure helpers become
Lean functions, the network is an explicit response environment, and the
orchestrator loop process_skus becomes a fold over an explicit run state
that records the sink calls and the pacing sleeps.
-/

namespace Mpstats

/-- Constant REQUEST_DELAY from main.py: delay between requests, seconds. -/
def REQUEST_DELAY : Nat := 3

/-- Constant MAX_RETRIES from main.py: total fetch attempts. -/
def MAX_RETRIES : Nat := 3

/-- Constant MAX_REQUESTS_PER_MINUTE from main.py: API request ceiling. -/
def MAX_REQUESTS_PER_MINUTE : Nat := 100

/-- Constant BATCH_INSERT_SIZE from main.py: rows per bulk sheet insert. -/
def BATCH_INSERT_SIZE : Nat := 20

/-- Embedding of Python str.strip(): drop leading and trailing whitespace. -/
def pyStrip (s : String) : String :=
  String.mk (((s.toList.dropWhile Char.isWhitespace).reverse.dropWhile
      Char.isWhitespace).reverse)

/-- Embedding of Python str.isdigit(): non-empty and every char a digit. -/
def pyIsDigit (s : String) : Bool :=
  !s.toList.isEmpty && s.toList.all Char.isDigit

/-- Embedding of validate_skus (main.py line 105): the list comprehension
keeps the stripped form of each entry whose stripped form is all digits. -/
def validate_skus (sku_list : List String) : List String :=
  (sku_list.filter (fun sku => pyIsDigit (pyStrip sku))).map pyStrip

-- Calendar arithmetic embedding the Python expression
-- (datetime.strptime(target_date, "%Y-%m-%d") - timedelta(days=1))
--   .strftime("%Y-%m-%d")
-- from main.py line 90.

/-- Gregorian leap-year rule used by datetime. -/
def isLeapYear (y : Nat) : Bool :=
  (y % 4 == 0 && y % 100 != 0) || y % 400 == 0

/-- Days in a month of a given year, as datetime computes them. -/
def daysInMonth (y m : Nat) : Nat :=
  if m == 2 then (if isLeapYear y then 29 else 28)
  else if m == 4 || m == 6 || m == 9 || m == 11 then 30
  else 31

/-- The calendar day before (y, m, d). -/
def prevDay (y m d : Nat) : Nat × Nat × Nat :=
  if 2 ≤ d then (y, m, d - 1)
  else if 2 ≤ m then (y, m - 1, daysInMonth y (m - 1))
  else (y - 1, 12, 31)

/-- Zero-pad a number to two digits, as strftime "%m"/"%d" does. -/
def pad2 (n : Nat) : String :=
  if n < 10 then "0" ++ toString n else toString n

/-- Zero-pad a number to four digits, as strftime "%Y" does. -/
def pad4 (n : Nat) : String :=
  if n < 10 then "000" ++ toString n
  else if n < 100 then "00" ++ toString n
  else if n < 1000 then "0" ++ toString n
  else toString n

/-- Format (y, m, d) as "YYYY-MM-DD". -/
def formatDate (y m d : Nat) : String :=
  pad4 y ++ "-" ++ pad2 m ++ "-" ++ pad2 d

/-- Split a character list into the groups between dash characters. -/
def splitDash : List Char → List (List Char)
  | [] => [[]]
  | c :: cs =>
    if c = '-' then [] :: splitDash cs
    else
      match splitDash cs with
      | [] => [[c]]
      | g :: gs => (c :: g) :: gs

/-- Read a non-empty all-digit character group as a number. -/
def digitsToNat (l : List Char) : Option Nat :=
  if l ≠ [] ∧ l.all Char.isDigit then
    some (l.foldl (fun n c => n * 10 + (c.toNat - '0'.toNat)) 0)
  else none

/-- Parse a "Y-M-D" string into numeric components, none when malformed. -/
def parseYMD (s : String) : Option (Nat × Nat × Nat) :=
  match splitDash s.toList with
  | [ys, ms, ds] =>
    match digitsToNat ys, digitsToNat ms, digitsToNat ds with
    | some y, some m, some d => some (y, m, d)
    | _, _, _ => none
  | _ => none

/-- The "%Y-%m-%d" string one day before target_date, as computed inline in
fetch_item_data (main.py line 90).  On a malformed date the source raises
inside strptime; that error path is outside every claim, and the embedding
returns the input unchanged there (no theorem below touches that case). -/
def prevDateStr (s : String) : String :=
  match parseYMD s with
  | some (y, m, d) =>
    match prevDay y m d with
    | (y2, m2, d2) => formatDate y2 m2 d2
  | none => s

-- The remote response entries and the parsed metric record

/-- One per-date record of the balance_by_day response body.  Each field is
read in the source with dict.get and a default, so each is optional. -/
structure Entry where
  date : Option String
  sales : Option Int
  price : Option Int
  final_price : Option Int
deriving DecidableEq, Repr

/-- The dict returned by fetch_item_data: sales delta plus price fields,
where none stands for the "" default the source substitutes. -/
structure ItemData where
  sales : Int
  price : Option Int
  final_price : Option Int
deriving DecidableEq, Repr

/-- The date-matching for-loop of fetch_item_data (main.py lines 85..91):
fold over the entries, the last target-date match setting target_sales and
the last prior-date match (among non-target entries) setting prev_sales. -/
def scanSales (target_date prev_date : String) (data : List Entry)
    (tp : Int × Int) : Int × Int :=
  data.foldl (fun tp entry =>
    if entry.date = some target_date then (entry.sales.getD 0, tp.2)
    else if entry.date = some prev_date then (tp.1, entry.sales.getD 0)
    else tp) tp

/-- The response-parsing tail of fetch_item_data (main.py lines 80..97):
empty body yields None; otherwise the sales delta from the scan, with price
and final_price read from the loop variable left over after the scan, which
is the LAST entry of the body. -/
def fetch_parse (target_date : String) (data : List Entry) :
    Option ItemData :=
  match data with
  | [] => none
  | e :: es =>
    let tp := scanSales target_date (prevDateStr target_date) (e :: es)
      ((0 : Int), (0 : Int))
    let lastE := (e :: es).getLast (List.cons_ne_nil e es)
    some { sales := tp.1 - tp.2, price := lastE.price,
           final_price := lastE.final_price }

-- Last-match-wins characterization of the scan

/-- Value of target_sales after the scan: last matching entry wins. -/
def lastSalesAt (d : String) (dflt : Int) : List Entry → Int
  | [] => dflt
  | e :: es =>
    if e.date = some d then lastSalesAt d (e.sales.getD 0) es
    else lastSalesAt d dflt es

/-- Value of prev_sales after the scan: last entry matching the prior date
among entries not matching the target date wins. -/
def lastPrevSales (target_date prev_date : String) (dflt : Int) :
    List Entry → Int
  | [] => dflt
  | e :: es =>
    if e.date = some target_date then
      lastPrevSales target_date prev_date dflt es
    else if e.date = some prev_date then
      lastPrevSales target_date prev_date (e.sales.getD 0) es
    else lastPrevSales target_date prev_date dflt es

-- The remote interaction of fetch_item_data (main.py lines 60..101) and its
-- tenacity retry decorator.  The network is an environment mapping the
-- attempt number (1-based) to the response of that attempt.  The API_KEY
-- guard at line 65 is a configuration precondition outside every claim and
-- is assumed satisfied.

/-- One HTTP exchange outcome as fetch_item_data distinguishes them:
a 429 with optional Retry-After, another non-2xx status (raise_for_status),
a transport failure (requests.RequestException), or a 200 with a body. -/
inductive ApiResponse where
  | rateLimited (retryAfter : Option Nat)
  | httpError
  | transportError
  | okBody (data : List Entry)

/-- Whether a response makes the attempt raise instead of returning. -/
def isFailureResp : ApiResponse → Bool
  | .okBody _ => false
  | _ => true

/-- The MpStatsAPIError exception class of main.py line 38. -/
inductive ApiError where
  | mpstatsAPIError
deriving DecidableEq, Repr

/-- The observable outcome of one fetch_item_data call: the returned value
or raised error, the number of attempts made, the backoff sleeps taken by
the retry decorator between attempts, and the sleeps taken inside attempts
on 429 responses. -/
structure FetchOutcome where
  result : Except ApiError (Option ItemData)
  attempts : Nat
  backoffs : List Nat
  rateSleeps : List Nat

/-- One undecorated attempt of fetch_item_data (main.py lines 71..101):
429 sleeps Retry-After (default 60) and raises MpStatsAPIError; any other
non-2xx or transport error raises MpStatsAPIError; a 200 body is parsed. -/
def fetchOnce (target_date : String) (resp : ApiResponse) :
    Except ApiError (Option ItemData) × List Nat :=
  match resp with
  | .rateLimited ra => (.error .mpstatsAPIError, [ra.getD 60])
  | .httpError => (.error .mpstatsAPIError, [])
  | .transportError => (.error .mpstatsAPIError, [])
  | .okBody data => (.ok (fetch_parse target_date data), [])

/-- The wait_exponential policy of tenacity with multiplier, min and max:
the sleep after the failed attempt numbered attemptNumber. -/
def wait_exponential (multiplier minW maxW attemptNumber : Nat) : Nat :=
  max minW (min (multiplier * 2 ^ attemptNumber) maxW)

/-- The tenacity retry loop of the decorator on main.py lines 60..62:
stop_after_attempt(MAX_RETRIES), wait_exponential(1, 2, 10), reraise. -/
def retryLoop (target_date : String) (resp : Nat → ApiResponse)
    (attemptNo : Nat) : Nat → FetchOutcome
  | 0 => { result := .error .mpstatsAPIError, attempts := 0, backoffs := [],
           rateSleeps := [] }
  | remaining + 1 =>
    match fetchOnce target_date (resp attemptNo) with
    | (.ok v, slp) =>
      { result := .ok v, attempts := 1, backoffs := [], rateSleeps := slp }
    | (.error e, slp) =>
      if remaining = 0 then
        { result := .error e, attempts := 1, backoffs := [],
          rateSleeps := slp }
      else
        { result := (retryLoop target_date resp (attemptNo + 1) remaining).result,
          attempts := (retryLoop target_date resp (attemptNo + 1) remaining).attempts + 1,
          backoffs := wait_exponential 1 2 10 attemptNo ::
            (retryLoop target_date resp (attemptNo + 1) remaining).backoffs,
          rateSleeps := slp ++
            (retryLoop target_date resp (attemptNo + 1) remaining).rateSleeps }

/-- The decorated fetch_item_data: the retry loop started at attempt 1 with
MAX_RETRIES attempts available. -/
def fetch_item_data (target_date : String) (resp : Nat → ApiResponse) :
    FetchOutcome :=
  retryLoop target_date resp 1 MAX_RETRIES

-- The orchestrator process_skus (main.py lines 134..179).  The fetch of one
-- sku is abstracted by an environment giving its observable outcome (raise,
-- Absent or a record), and the sink by a predicate telling whether the
-- append_rows call with a given index succeeds.  The run state records the
-- request counter, the pending batch, the trace of attempted sink calls
-- (rows and success), the pacing sleeps and whether process_skus returned
-- normally.

/-- One spreadsheet cell: a string or a number. -/
inductive Cell where
  | str (s : String)
  | num (n : Int)
deriving DecidableEq, Repr

/-- The serialization of an optional numeric field: none becomes "". -/
def optCell : Option Int → Cell
  | none => .str ""
  | some n => .num n

/-- Embedding of prepare_row_data (main.py line 110): the flat 5-field
row [date, sku, price, final_price, sales]. -/
def prepare_row_data (item_data : ItemData) (date_str sku : String) :
    List Cell :=
  [.str date_str, .str sku, optCell item_data.price,
    optCell item_data.final_price, .num item_data.sales]

/-- The outcome of fetch_item_data for one sku as process_skus observes it:
an exception, or a value (None or a record). -/
inductive FetchResult where
  | err
  | data (d : Option ItemData)
deriving DecidableEq, Repr

/-- The observable state of one process_skus run. -/
structure RunState where
  requestCount : Nat
  batch : List (List Cell)
  calls : List (List (List Cell) × Bool)
  sleeps : List Nat
  completed : Bool
deriving DecidableEq, Repr

/-- The state at the top of process_skus: counter 0, empty batch, no sink
call yet, no sleep yet. -/
def initState : RunState :=
  { requestCount := 0, batch := [], calls := [], sleeps := [],
    completed := false }

/-- Embedding of insert_batch_to_sheet (main.py line 121): an empty batch
returns immediately without touching the sink; otherwise the append_rows
call either succeeds or raises, and the raise is re-raised to the caller. -/
def insert_batch_to_sheet (sinkOk : Bool) (batch_data : List (List Cell)) :
    Except Unit Unit :=
  if batch_data.isEmpty then .ok ()
  else if sinkOk then .ok () else .error ()

/-- The rate-pacing tail of the loop body (main.py lines 166..171): on
reaching MAX_REQUESTS_PER_MINUTE sleep 60 and reset the counter, else
sleep REQUEST_DELAY. -/
def pace (s : RunState) : RunState :=
  if MAX_REQUESTS_PER_MINUTE ≤ s.requestCount then
    { s with sleeps := s.sleeps ++ [60], requestCount := 0 }
  else
    { s with sleeps := s.sleeps ++ [REQUEST_DELAY] }

/-- One iteration of the for-loop of process_skus (main.py lines 145..175):
count the request; a fetch error is caught and the loop continues with no
sleep; Absent skips the append and paces; a record is appended to the
batch, a full batch triggers a sink call — on success the batch is cleared
and the loop paces, on failure the exception is caught, the batch is kept
and no sleep happens. -/
def stepSku (fetch : String → FetchResult) (sinkOk : Nat → Bool)
    (date_str : String) (s : RunState) (sku : String) : RunState :=
  let s1 : RunState := { s with requestCount := s.requestCount + 1 }
  match fetch sku with
  | .err => s1
  | .data none => pace s1
  | .data (some d) =>
    let b := s1.batch ++ [prepare_row_data d date_str sku]
    if BATCH_INSERT_SIZE ≤ b.length then
      match insert_batch_to_sheet (sinkOk s1.calls.length) b with
      | .ok _ => pace { s1 with batch := [], calls := s1.calls ++ [(b, true)] }
      | .error _ => { s1 with batch := b, calls := s1.calls ++ [(b, false)] }
    else pace { s1 with batch := b }

/-- The whole for-loop of process_skus over the sku list. -/
def runLoop (fetch : String → FetchResult) (sinkOk : Nat → Bool)
    (date_str : String) (skus : List String) : RunState :=
  skus.foldl (stepSku fetch sinkOk date_str) initState

/-- The drain step of process_skus (main.py lines 177..179): flush a
trailing non-empty batch; a failure of that final call propagates out of
process_skus, so the run does not complete normally. -/
def finalFlush (sinkOk : Nat → Bool) (s : RunState) : RunState :=
  if s.batch.isEmpty then { s with completed := true }
  else
    match insert_batch_to_sheet (sinkOk s.calls.length) s.batch with
    | .ok _ =>
      { s with batch := [], calls := s.calls ++ [(s.batch, true)],
               completed := true }
    | .error _ =>
      { s with calls := s.calls ++ [(s.batch, false)], completed := false }

/-- Embedding of process_skus (main.py lines 134..179): the loop over the
skus followed by the drain step. -/
def process_skus (fetch : String → FetchResult) (sinkOk : Nat → Bool)
    (date_str : String) (skus : List String) : RunState :=
  finalFlush sinkOk (runLoop fetch sinkOk date_str skus)

/-- The rows a run should produce: one per sku whose fetch returns data,
in sku order. -/
def rowsOf (fetch : String → FetchResult) (date_str : String)
    (skus : List String) : List (List Cell) :=
  skus.filterMap (fun sku =>
    match fetch sku with
    | .data (some d) => some (prepare_row_data d date_str sku)
    | _ => none)

/-- Reference batching of a row sequence starting from pending batch b:
the emitted full batches and the final pending batch. -/
def packRows (b : List (List Cell)) :
    List (List Cell) → List (List (List Cell)) × List (List Cell)
  | [] => ([], b)
  | r :: rs =>
    if BATCH_INSERT_SIZE ≤ (b ++ [r]).length then
      ((b ++ [r]) :: (packRows [] rs).1, (packRows [] rs).2)
    else packRows (b ++ [r]) rs

/-- Reference pacing-sleep trace for n identifiers none of whose
iterations raises, starting from request counter rc. -/
def expectedSleeps : Nat → Nat → List Nat
  | _, 0 => []
  | rc, n + 1 =>
    if MAX_REQUESTS_PER_MINUTE ≤ rc + 1 then 60 :: expectedSleeps 0 n
    else REQUEST_DELAY :: expectedSleeps (rc + 1) n

-- Concrete environments used by witnesses and counterexamples

/-- A fixed metric record. -/
def wItem : ItemData := { sales := 10, price := some 100, final_price := some 90 }

/-- A fetch environment where every sku returns the fixed record. -/
def wFetchData : String → FetchResult := fun _ => .data (some wItem)

/-- A fetch environment where sku "22" raises and the rest return data. -/
def wFetchA : String → FetchResult := fun sku =>
  if sku = "22" then .err else .data (some wItem)

/-- A fetch environment where every sku raises. -/
def wFetchErr : String → FetchResult := fun _ => .err

/-- A sink that always accepts. -/
def wSinkOk : Nat → Bool := fun _ => true

/-- A sink whose first append_rows call raises and the rest succeed. -/
def wSinkFail0 : Nat → Bool := fun i => i != 0

/-- Twenty-one sku strings. -/
def skus21 : List String :=
  ["1", "2", "3", "4", "5", "6", "7", "8", "9", "10", "11", "12", "13",
   "14", "15", "16", "17", "18", "19", "20", "21"]

/-- A run state whose batch already holds 19 rows. -/
def s19 : RunState :=
  { requestCount := 19,
    batch := List.replicate 19 (prepare_row_data wItem "2025-05-09" "1"),
    calls := [], sleeps := [], completed := false }

-- Lemmas and claim theorems

-- Helper lemmas about the validator

theorem string_ne_empty_iff (s : String) : s ≠ "" ↔ s.toList ≠ [] := by
  cases s with
  | mk data =>
    constructor
    · intro h hc
      apply h
      have hd : data = [] := hc
      rw [hd]
    · intro h hc
      apply h
      have hd : data = [] := by
        have := congrArg String.data hc
        exact this
      exact hd

theorem digit_not_whitespace (c : Char) (h : c.isDigit = true) :
    c.isWhitespace = false := by
  by_contra hw
  simp only [Bool.not_eq_false] at hw
  have hws : ((c = ' ' ∨ c = '\t') ∨ c = '\r') ∨ c = '\n' := by
    simpa [Char.isWhitespace] using hw
  rcases hws with ((h1 | h1) | h1) | h1 <;> subst h1 <;> revert h <;> decide

theorem dropWhile_ws_of_digits (l : List Char)
    (h : l.all Char.isDigit = true) :
    l.dropWhile Char.isWhitespace = l := by
  cases l with
  | nil => rfl
  | cons c cs =>
    rw [List.dropWhile_cons]
    have hc : c.isDigit = true := by
      rw [List.all_cons, Bool.and_eq_true] at h
      exact h.1
    simp [digit_not_whitespace c hc]

theorem pyIsDigit_iff (s : String) :
    pyIsDigit s = true ↔ (s ≠ "" ∧ s.toList.all Char.isDigit = true) := by
  unfold pyIsDigit
  rw [Bool.and_eq_true, string_ne_empty_iff]
  cases hl : s.toList with
  | nil => simp
  | cons c cs => simp

theorem pyStrip_of_digits (s : String) (h : pyIsDigit s = true) :
    pyStrip s = s := by
  have h2 := h
  unfold pyIsDigit at h2
  rw [Bool.and_eq_true] at h2
  have hall : s.toList.all Char.isDigit = true := h2.2
  have hrev : s.toList.reverse.all Char.isDigit = true := by
    rw [List.all_eq_true] at hall ⊢
    intro c hc
    exact hall c (List.mem_reverse.mp hc)
  unfold pyStrip
  rw [dropWhile_ws_of_digits _ hall, dropWhile_ws_of_digits _ hrev,
    List.reverse_reverse]
  cases s
  rfl

theorem validate_skus_cons (a : String) (l : List String) :
    validate_skus (a :: l) =
      if pyIsDigit (pyStrip a) then pyStrip a :: validate_skus l
      else validate_skus l := by
  unfold validate_skus
  by_cases h : pyIsDigit (pyStrip a) = true
  · simp [List.filter_cons, h]
  · simp [List.filter_cons, h]

theorem filterMap_if_form (g : String → String) (p : String → Bool)
    (l : List String) :
    l.filterMap (fun s => if p s then some (g s) else none) =
      (l.filter p).map g := by
  induction l with
  | nil => rfl
  | cons a tl ih =>
    by_cases h : p a = true
    · simp [List.filterMap_cons, List.filter_cons, h, ih]
    · simp [List.filterMap_cons, List.filter_cons, h, ih]

/-- C8: validate_skus maps each entry to its whitespace-trimmed form and
keeps it iff the trimmed form is non-empty and all decimal digits, in input
order without deduplication; the spec example evaluates as stated. -/
theorem validate_skus_spec (l : List String) :
    validate_skus l = l.filterMap (fun s =>
      if pyStrip s ≠ "" ∧ (pyStrip s).toList.all Char.isDigit then
        some (pyStrip s) else none) ∧
    validate_skus ["123", " 45 ", "abc", "", "6x7"] = ["123", "45"] := by
  constructor
  · have hfun : ∀ s : String,
        (if pyStrip s ≠ "" ∧ (pyStrip s).toList.all Char.isDigit then
          some (pyStrip s) else none) =
        (if pyIsDigit (pyStrip s) then some (pyStrip s) else none) := by
      intro s
      by_cases h : pyIsDigit (pyStrip s) = true
      · rw [if_pos h, if_pos ((pyIsDigit_iff _).mp h)]
      · rw [if_neg h, if_neg (fun hc => h ((pyIsDigit_iff _).mpr hc))]
    calc validate_skus l
        = (l.filter (fun s => pyIsDigit (pyStrip s))).map pyStrip := rfl
      _ = l.filterMap
            (fun s => if pyIsDigit (pyStrip s) then some (pyStrip s)
              else none) := (filterMap_if_form _ _ _).symm
      _ = l.filterMap (fun s =>
            if pyStrip s ≠ "" ∧ (pyStrip s).toList.all Char.isDigit then
              some (pyStrip s) else none) := by
          apply List.filterMap_congr
          intro s _
          exact (hfun s).symm
  · decide

/-- C10: validate_skus is idempotent — every token it keeps is already
stripped, non-empty and all digits, so a second pass keeps it unchanged. -/
theorem validate_skus_idempotent (l : List String) :
    validate_skus (validate_skus l) = validate_skus l := by
  induction l with
  | nil => rfl
  | cons a tl ih =>
    by_cases h : pyIsDigit (pyStrip a) = true
    · rw [validate_skus_cons, if_pos h, validate_skus_cons,
        pyStrip_of_digits _ h, if_pos h, ih]
    · rw [validate_skus_cons, if_neg h, ih]

theorem scanSales_fst (target_date prev_date : String) :
    ∀ (l : List Entry) (t0 p0 : Int),
      (scanSales target_date prev_date l (t0, p0)).1 =
        lastSalesAt target_date t0 l := by
  intro l
  induction l with
  | nil => intro t0 p0; rfl
  | cons e es ih =>
    intro t0 p0
    unfold scanSales lastSalesAt
    rw [List.foldl_cons]
    by_cases h1 : e.date = some target_date
    · simp only [h1, if_pos rfl, if_true]
      exact ih (e.sales.getD 0) p0
    · by_cases h2 : e.date = some prev_date
      · simp only [if_neg h1, if_pos h2]
        exact ih t0 (e.sales.getD 0)
      · simp only [if_neg h1, if_neg h2]
        exact ih t0 p0

theorem scanSales_snd (target_date prev_date : String) :
    ∀ (l : List Entry) (t0 p0 : Int),
      (scanSales target_date prev_date l (t0, p0)).2 =
        lastPrevSales target_date prev_date p0 l := by
  intro l
  induction l with
  | nil => intro t0 p0; rfl
  | cons e es ih =>
    intro t0 p0
    unfold scanSales lastPrevSales
    rw [List.foldl_cons]
    by_cases h1 : e.date = some target_date
    · simp only [h1, if_pos rfl]
      exact ih (e.sales.getD 0) p0
    · by_cases h2 : e.date = some prev_date
      · simp only [if_neg h1, if_pos h2]
        exact ih t0 (e.sales.getD 0)
      · simp only [if_neg h1, if_neg h2]
        exact ih t0 p0

theorem lastSalesAt_of_no_match (d : String) :
    ∀ (l : List Entry) (dflt : Int),
      l.filter (fun e => e.date = some d) = [] →
      lastSalesAt d dflt l = dflt := by
  intro l
  induction l with
  | nil => intro dflt _; rfl
  | cons e es ih =>
    intro dflt hf
    rw [List.filter_cons] at hf
    by_cases h : e.date = some d
    · simp [h] at hf
    · unfold lastSalesAt
      rw [if_neg h]
      apply ih
      simpa [h] using hf

theorem lastSalesAt_of_unique (d : String) :
    ∀ (l : List Entry) (e1 : Entry) (dflt : Int),
      l.filter (fun e => e.date = some d) = [e1] →
      lastSalesAt d dflt l = e1.sales.getD 0 := by
  intro l
  induction l with
  | nil => intro e1 dflt hf; simp at hf
  | cons e es ih =>
    intro e1 dflt hf
    rw [List.filter_cons] at hf
    by_cases h : e.date = some d
    · rw [if_pos (by simp [h])] at hf
      have he : e = e1 := (List.cons_eq_cons.mp hf).1
      have hes : es.filter (fun e => e.date = some d) = [] :=
        (List.cons_eq_cons.mp hf).2
      unfold lastSalesAt
      rw [if_pos h, he]
      exact lastSalesAt_of_no_match d es (e1.sales.getD 0) hes
    · unfold lastSalesAt
      rw [if_neg h]
      apply ih
      simpa [h] using hf

theorem lastPrevSales_of_no_match (target_date prev_date : String) :
    ∀ (l : List Entry) (dflt : Int),
      l.filter (fun e => e.date = some prev_date) = [] →
      lastPrevSales target_date prev_date dflt l = dflt := by
  intro l
  induction l with
  | nil => intro dflt _; rfl
  | cons e es ih =>
    intro dflt hf
    rw [List.filter_cons] at hf
    by_cases h2 : e.date = some prev_date
    · simp [h2] at hf
    · have htl : es.filter (fun e => e.date = some prev_date) = [] := by
        simpa [h2] using hf
      unfold lastPrevSales
      by_cases h1 : e.date = some target_date
      · rw [if_pos h1]
        exact ih dflt htl
      · rw [if_neg h1, if_neg h2]
        exact ih dflt htl

theorem lastPrevSales_of_unique (target_date prev_date : String)
    (hne : prev_date ≠ target_date) :
    ∀ (l : List Entry) (e0 : Entry) (dflt : Int),
      l.filter (fun e => e.date = some prev_date) = [e0] →
      lastPrevSales target_date prev_date dflt l = e0.sales.getD 0 := by
  intro l
  induction l with
  | nil => intro e0 dflt hf; simp at hf
  | cons e es ih =>
    intro e0 dflt hf
    rw [List.filter_cons] at hf
    by_cases h2 : e.date = some prev_date
    · rw [if_pos (by simp [h2])] at hf
      have he : e = e0 := (List.cons_eq_cons.mp hf).1
      have hes : es.filter (fun e => e.date = some prev_date) = [] :=
        (List.cons_eq_cons.mp hf).2
      have h1 : ¬e.date = some target_date := by
        rw [h2]
        intro hc
        exact hne (Option.some.inj hc)
      unfold lastPrevSales
      rw [if_neg h1, if_pos h2, he]
      exact lastPrevSales_of_no_match target_date prev_date es
        (e0.sales.getD 0) hes
    · have htl : es.filter (fun e => e.date = some prev_date) = [e0] := by
        simpa [h2] using hf
      unfold lastPrevSales
      by_cases h1 : e.date = some target_date
      · rw [if_pos h1]
        exact ih e0 dflt htl
      · rw [if_neg h1, if_neg h2]
        exact ih e0 dflt htl

theorem fetchOnce_of_failure (target_date : String) (r : ApiResponse)
    (h : isFailureResp r = true) :
    (fetchOnce target_date r).1 = .error .mpstatsAPIError := by
  cases r with
  | rateLimited ra => rfl
  | httpError => rfl
  | transportError => rfl
  | okBody data => simp [isFailureResp] at h

theorem retryLoop_fail_step (target_date : String) (resp : Nat → ApiResponse)
    (n k : Nat) (slp : List Nat)
    (hf : fetchOnce target_date (resp n) = (.error .mpstatsAPIError, slp)) :
    retryLoop target_date resp n (k + 2) =
      { result := (retryLoop target_date resp (n + 1) (k + 1)).result,
        attempts := (retryLoop target_date resp (n + 1) (k + 1)).attempts + 1,
        backoffs := wait_exponential 1 2 10 n ::
          (retryLoop target_date resp (n + 1) (k + 1)).backoffs,
        rateSleeps := slp ++
          (retryLoop target_date resp (n + 1) (k + 1)).rateSleeps } := by
  conv_lhs => rw [show k + 2 = (k + 1) + 1 from rfl]; unfold retryLoop
  rw [hf]
  simp

theorem retryLoop_fail_last (target_date : String) (resp : Nat → ApiResponse)
    (n : Nat) (slp : List Nat)
    (hf : fetchOnce target_date (resp n) = (.error .mpstatsAPIError, slp)) :
    retryLoop target_date resp n 1 =
      { result := .error .mpstatsAPIError, attempts := 1, backoffs := [],
        rateSleeps := slp } := by
  conv_lhs => rw [show (1 : Nat) = 0 + 1 from rfl]; unfold retryLoop
  rw [hf]
  simp

/-- C2: the claim says price and final_price come from the target-date
entry when present.  The code instead reads them from the stale loop
variable, the LAST entry of the response: here the target-date entry has
price 100 and final_price 90, yet the result carries 555 and 444 from the
last entry, whose date is neither the target nor the prior date. -/
theorem fetch_parse_price_from_last_entry :
    fetch_parse "2025-05-10"
      [⟨some "2025-05-10", some 50, some 100, some 90⟩,
       ⟨some "2025-05-08", some 7, some 555, some 444⟩] =
      some { sales := 50, price := some 555, final_price := some 444 } ∧
    (([⟨some "2025-05-10", some 50, some 100, some 90⟩,
       ⟨some "2025-05-08", some 7, some 555, some 444⟩] : List Entry).filter
      (fun e => e.date = some "2025-05-10")).map Entry.price = [some 100] := by
  decide

/-- C3: with a unique target-date entry carrying sales s1, the sales field
of the parsed record is s1 minus the prior-date sales, a missing prior side
counting as 0 and a unique prior-date entry carrying sales s0 giving
s1 - s0. -/
theorem fetch_parse_sales_delta (target_date : String) (data : List Entry)
    (e1 : Entry) (s1 : Int)
    (hne : prevDateStr target_date ≠ target_date)
    (ht : data.filter (fun e => e.date = some target_date) = [e1])
    (hs1 : e1.sales = some s1) :
    (data.filter (fun e => e.date = some (prevDateStr target_date)) = [] →
      (fetch_parse target_date data).map ItemData.sales = some s1) ∧
    (∀ (e0 : Entry) (s0 : Int),
      data.filter (fun e => e.date = some (prevDateStr target_date)) = [e0] →
      e0.sales = some s0 →
      (fetch_parse target_date data).map ItemData.sales =
        some (s1 - s0)) := by
  cases data with
  | nil => simp at ht
  | cons e es =>
    have hval : (fetch_parse target_date (e :: es)).map ItemData.sales =
        some ((scanSales target_date (prevDateStr target_date) (e :: es)
            ((0 : Int), (0 : Int))).1 -
          (scanSales target_date (prevDateStr target_date) (e :: es)
            ((0 : Int), (0 : Int))).2) := rfl
    have hfst : (scanSales target_date (prevDateStr target_date) (e :: es)
        ((0 : Int), (0 : Int))).1 = s1 := by
      rw [scanSales_fst]
      rw [lastSalesAt_of_unique target_date (e :: es) e1 0 ht, hs1]
      rfl
    constructor
    · intro hp
      have hsnd : (scanSales target_date (prevDateStr target_date) (e :: es)
          ((0 : Int), (0 : Int))).2 = 0 := by
        rw [scanSales_snd]
        exact lastPrevSales_of_no_match target_date (prevDateStr target_date)
          (e :: es) 0 hp
      rw [hval, hfst, hsnd]
      simp
    · intro e0 s0 hp hs0
      have hsnd : (scanSales target_date (prevDateStr target_date) (e :: es)
          ((0 : Int), (0 : Int))).2 = s0 := by
        rw [scanSales_snd]
        rw [lastPrevSales_of_unique target_date (prevDateStr target_date) hne
          (e :: es) e0 0 hp, hs0]
        rfl
      rw [hval, hfst, hsnd]

/-- Witness for C3 at the spec examples: target sales 50 with prior sales
30 gives delta 20, and target sales 50 with the prior day absent gives
50. -/
theorem fetch_parse_sales_delta_witness :
    (fetch_parse "2025-05-10"
      [⟨some "2025-05-10", some 50, some 100, some 90⟩,
       ⟨some "2025-05-09", some 30, some 120, some 110⟩]).map
      ItemData.sales = some 20 ∧
    (fetch_parse "2025-05-10"
      [⟨some "2025-05-10", some 50, some 100, some 90⟩]).map
      ItemData.sales = some 50 := by
  constructor
  · have h := (fetch_parse_sales_delta "2025-05-10"
      [⟨some "2025-05-10", some 50, some 100, some 90⟩,
       ⟨some "2025-05-09", some 30, some 120, some 110⟩]
      ⟨some "2025-05-10", some 50, some 100, some 90⟩ 50
      (by decide) (by decide) rfl).2
      ⟨some "2025-05-09", some 30, some 120, some 110⟩ 30 (by decide) rfl
    simpa using h
  · have h := (fetch_parse_sales_delta "2025-05-10"
      [⟨some "2025-05-10", some 50, some 100, some 90⟩]
      ⟨some "2025-05-10", some 50, some 100, some 90⟩ 50
      (by decide) (by decide) rfl).1 (by decide)
    exact h

/-- C4: when every attempt fails (rate limit, non-2xx or transport error),
fetch_item_data makes exactly MAX_RETRIES = 3 attempts, sleeps the
wait_exponential(1, 2, 10) backoffs 2 and 4 between them — strictly
increasing and capped at 10 — and raises MpStatsAPIError. -/
theorem fetch_item_data_exhaustion (target_date : String)
    (resp : Nat → ApiResponse) (h : ∀ n, isFailureResp (resp n) = true) :
    (fetch_item_data target_date resp).result = .error .mpstatsAPIError ∧
    (fetch_item_data target_date resp).attempts = 3 ∧
    (fetch_item_data target_date resp).backoffs =
      [wait_exponential 1 2 10 1, wait_exponential 1 2 10 2] ∧
    (fetch_item_data target_date resp).backoffs = [2, 4] ∧
    wait_exponential 1 2 10 1 < wait_exponential 1 2 10 2 ∧
    (∀ b ∈ (fetch_item_data target_date resp).backoffs, b ≤ 10) := by
  rcases hfo1 : fetchOnce target_date (resp 1) with ⟨res1, slp1⟩
  rcases hfo2 : fetchOnce target_date (resp 2) with ⟨res2, slp2⟩
  rcases hfo3 : fetchOnce target_date (resp 3) with ⟨res3, slp3⟩
  have h1 : res1 = .error .mpstatsAPIError := by
    have := fetchOnce_of_failure target_date (resp 1) (h 1)
    rw [hfo1] at this
    exact this
  have h2 : res2 = .error .mpstatsAPIError := by
    have := fetchOnce_of_failure target_date (resp 2) (h 2)
    rw [hfo2] at this
    exact this
  have h3 : res3 = .error .mpstatsAPIError := by
    have := fetchOnce_of_failure target_date (resp 3) (h 3)
    rw [hfo3] at this
    exact this
  subst h1 h2 h3
  have t1 : retryLoop target_date resp 3 1 =
      { result := .error .mpstatsAPIError, attempts := 1, backoffs := [],
        rateSleeps := slp3 } :=
    retryLoop_fail_last target_date resp 3 slp3 hfo3
  have t2 : retryLoop target_date resp 2 2 =
      { result := (retryLoop target_date resp 3 1).result,
        attempts := (retryLoop target_date resp 3 1).attempts + 1,
        backoffs := wait_exponential 1 2 10 2 ::
          (retryLoop target_date resp 3 1).backoffs,
        rateSleeps := slp2 ++ (retryLoop target_date resp 3 1).rateSleeps } :=
    retryLoop_fail_step target_date resp 2 0 slp2 hfo2
  have t3 : retryLoop target_date resp 1 3 =
      { result := (retryLoop target_date resp 2 2).result,
        attempts := (retryLoop target_date resp 2 2).attempts + 1,
        backoffs := wait_exponential 1 2 10 1 ::
          (retryLoop target_date resp 2 2).backoffs,
        rateSleeps := slp1 ++ (retryLoop target_date resp 2 2).rateSleeps } :=
    retryLoop_fail_step target_date resp 1 1 slp1 hfo1
  have hrun : fetch_item_data target_date resp =
      { result := .error .mpstatsAPIError, attempts := 3,
        backoffs := [wait_exponential 1 2 10 1, wait_exponential 1 2 10 2],
        rateSleeps := slp1 ++ (slp2 ++ slp3) } := by
    unfold fetch_item_data MAX_RETRIES
    rw [t3, t2, t1]
  rw [hrun]
  refine ⟨rfl, rfl, rfl, ?_, ?_, ?_⟩
  · show [wait_exponential 1 2 10 1, wait_exponential 1 2 10 2] = [2, 4]
    decide
  · decide
  · intro b hb
    have hb2 : b = wait_exponential 1 2 10 1 ∨
        b = wait_exponential 1 2 10 2 := by
      simpa using hb
    rcases hb2 with hb1 | hb1 <;> subst hb1 <;> decide

/-- Witness for C4: an always-failing transport gives MpStatsAPIError after
exactly 3 attempts with backoffs 2 and 4. -/
theorem fetch_item_data_exhaustion_witness :
    (fetch_item_data "2025-05-09" (fun _ => ApiResponse.transportError)).result
        = .error .mpstatsAPIError ∧
    (fetch_item_data "2025-05-09"
        (fun _ => ApiResponse.transportError)).attempts = 3 ∧
    (fetch_item_data "2025-05-09"
        (fun _ => ApiResponse.transportError)).backoffs = [2, 4] := by
  have h := fetch_item_data_exhaustion "2025-05-09"
    (fun _ => ApiResponse.transportError) (fun _ => rfl)
  exact ⟨h.1, h.2.1, h.2.2.2.1⟩

/-- C5 counterexample: the claim says that when both the target-date and
prior-date lookups are Absent the fetch returns Absent.  On this non-empty
body neither the target date nor the prior date occurs, yet the code
returns a metric record (sales 0, price fields from the last entry), not
None. -/
theorem fetch_parse_absent_counterexample :
    ([(⟨some "2020-01-01", some 9, some 1, some 2⟩ : Entry)]).filter
      (fun e => e.date = some "2025-05-10") = [] ∧
    ([(⟨some "2020-01-01", some 9, some 1, some 2⟩ : Entry)]).filter
      (fun e => e.date = some (prevDateStr "2025-05-10")) = [] ∧
    fetch_parse "2025-05-10" [⟨some "2020-01-01", some 9, some 1, some 2⟩] =
      some { sales := 0, price := some 1, final_price := some 2 } ∧
    fetch_parse "2025-05-10"
      [⟨some "2020-01-01", some 9, some 1, some 2⟩] ≠ none := by
  refine ⟨by decide, by decide, by decide, by decide⟩

/-- C5 amended: an empty response body yields Absent (.ok none) on the
first attempt without raising and without retrying; but a NON-empty body
in which both the target and prior dates are absent yields a record with
sales 0, not Absent. -/
theorem fetch_item_data_absent (target_date : String)
    (resp : Nat → ApiResponse) (data : List Entry)
    (hresp : resp 1 = .okBody []) :
    ((fetch_item_data target_date resp).result = .ok none ∧
     (fetch_item_data target_date resp).attempts = 1) ∧
    (data ≠ [] →
      data.filter (fun e => e.date = some target_date) = [] →
      data.filter (fun e => e.date = some (prevDateStr target_date)) = [] →
      (fetch_parse target_date data).map ItemData.sales = some 0) := by
  constructor
  · have hfo : fetchOnce target_date (resp 1) = (.ok none, []) := by
      rw [hresp]
      rfl
    have hrun : fetch_item_data target_date resp =
        { result := .ok none, attempts := 1, backoffs := [],
          rateSleeps := [] } := by
      unfold fetch_item_data MAX_RETRIES
      conv_lhs => rw [show (3 : Nat) = 2 + 1 from rfl]; unfold retryLoop
      rw [hfo]
    rw [hrun]
    exact ⟨rfl, rfl⟩
  · intro hdata ht hp
    cases data with
    | nil => exact absurd rfl hdata
    | cons e es =>
      have hval : (fetch_parse target_date (e :: es)).map ItemData.sales =
          some ((scanSales target_date (prevDateStr target_date) (e :: es)
              ((0 : Int), (0 : Int))).1 -
            (scanSales target_date (prevDateStr target_date) (e :: es)
              ((0 : Int), (0 : Int))).2) := rfl
      have hfst : (scanSales target_date (prevDateStr target_date) (e :: es)
          ((0 : Int), (0 : Int))).1 = 0 := by
        rw [scanSales_fst]
        exact lastSalesAt_of_no_match target_date (e :: es) 0 ht
      have hsnd : (scanSales target_date (prevDateStr target_date) (e :: es)
          ((0 : Int), (0 : Int))).2 = 0 := by
        rw [scanSales_snd]
        exact lastPrevSales_of_no_match target_date (prevDateStr target_date)
          (e :: es) 0 hp
      rw [hval, hfst, hsnd]
      simp

/-- Witness for the amended C5: an empty body gives .ok none in one
attempt, and a concrete non-empty body with both dates absent gives a
record with sales 0. -/
theorem fetch_item_data_absent_witness :
    (fetch_item_data "2025-05-10"
      (fun _ => ApiResponse.okBody [])).result = .ok none ∧
    (fetch_item_data "2025-05-10"
      (fun _ => ApiResponse.okBody [])).attempts = 1 ∧
    (fetch_parse "2025-05-10"
      [⟨some "2020-01-01", some 9, some 1, some 2⟩]).map ItemData.sales =
      some 0 := by
  have h := fetch_item_data_absent "2025-05-10"
    (fun _ => ApiResponse.okBody [])
    [⟨some "2020-01-01", some 9, some 1, some 2⟩] rfl
  exact ⟨h.1.1, h.1.2, h.2 (by decide) (by decide) (by decide)⟩

-- Small unfolding lemmas for the orchestrator

theorem insert_batch_ok (b : List (List Cell)) :
    insert_batch_to_sheet true b = .ok () := by
  unfold insert_batch_to_sheet
  split
  · rfl
  · rfl

theorem pace_batch (s : RunState) : (pace s).batch = s.batch := by
  unfold pace
  split <;> rfl

theorem pace_calls (s : RunState) : (pace s).calls = s.calls := by
  unfold pace
  split <;> rfl

theorem pace_completed (s : RunState) : (pace s).completed = s.completed := by
  unfold pace
  split <;> rfl

theorem pace_sleeps (s : RunState) :
    (pace s).sleeps = s.sleeps ++
      [if MAX_REQUESTS_PER_MINUTE ≤ s.requestCount then 60
        else REQUEST_DELAY] := by
  unfold pace
  split <;> rfl

theorem pace_requestCount (s : RunState) :
    (pace s).requestCount =
      if MAX_REQUESTS_PER_MINUTE ≤ s.requestCount then 0
      else s.requestCount := by
  unfold pace
  split <;> rfl

theorem stepSku_err (fetch : String → FetchResult) (sinkOk : Nat → Bool)
    (date_str : String) (s : RunState) (sku : String)
    (hf : fetch sku = .err) :
    stepSku fetch sinkOk date_str s sku =
      { s with requestCount := s.requestCount + 1 } := by
  unfold stepSku
  rw [hf]

theorem stepSku_none (fetch : String → FetchResult) (sinkOk : Nat → Bool)
    (date_str : String) (s : RunState) (sku : String)
    (hf : fetch sku = .data none) :
    stepSku fetch sinkOk date_str s sku =
      pace { s with requestCount := s.requestCount + 1 } := by
  unfold stepSku
  rw [hf]

theorem stepSku_some (fetch : String → FetchResult) (sinkOk : Nat → Bool)
    (date_str : String) (s : RunState) (sku : String) (d : ItemData)
    (hf : fetch sku = .data (some d)) :
    stepSku fetch sinkOk date_str s sku =
      if BATCH_INSERT_SIZE ≤
          (s.batch ++ [prepare_row_data d date_str sku]).length then
        match insert_batch_to_sheet (sinkOk s.calls.length)
            (s.batch ++ [prepare_row_data d date_str sku]) with
        | .ok _ =>
          pace { s with
                  requestCount := s.requestCount + 1,
                  batch := [],
                  calls := s.calls ++
                    [(s.batch ++ [prepare_row_data d date_str sku], true)] }
        | .error _ =>
          { s with
             requestCount := s.requestCount + 1,
             batch := s.batch ++ [prepare_row_data d date_str sku],
             calls := s.calls ++
               [(s.batch ++ [prepare_row_data d date_str sku], false)] }
      else
        pace { s with
                requestCount := s.requestCount + 1,
                batch := s.batch ++ [prepare_row_data d date_str sku] } := by
  unfold stepSku
  rw [hf]

theorem rowsOf_cons_err (fetch : String → FetchResult) (date_str : String)
    (sku : String) (rest : List String) (hf : fetch sku = .err) :
    rowsOf fetch date_str (sku :: rest) = rowsOf fetch date_str rest := by
  unfold rowsOf
  rw [List.filterMap_cons, hf]

theorem rowsOf_cons_none (fetch : String → FetchResult) (date_str : String)
    (sku : String) (rest : List String) (hf : fetch sku = .data none) :
    rowsOf fetch date_str (sku :: rest) = rowsOf fetch date_str rest := by
  unfold rowsOf
  rw [List.filterMap_cons, hf]

theorem rowsOf_cons_some (fetch : String → FetchResult) (date_str : String)
    (sku : String) (rest : List String) (d : ItemData)
    (hf : fetch sku = .data (some d)) :
    rowsOf fetch date_str (sku :: rest) =
      prepare_row_data d date_str sku :: rowsOf fetch date_str rest := by
  unfold rowsOf
  rw [List.filterMap_cons, hf]

theorem stepSku_paced (fetch : String → FetchResult) (sinkOk : Nat → Bool)
    (date_str : String) (s : RunState) (sku : String)
    (hok : ∀ i, sinkOk i = true) (hf : fetch sku ≠ .err) :
    (stepSku fetch sinkOk date_str s sku).sleeps =
      s.sleeps ++ [if MAX_REQUESTS_PER_MINUTE ≤ s.requestCount + 1 then 60
        else REQUEST_DELAY] ∧
    (stepSku fetch sinkOk date_str s sku).requestCount =
      (if MAX_REQUESTS_PER_MINUTE ≤ s.requestCount + 1 then 0
        else s.requestCount + 1) := by
  cases hfc : fetch sku with
  | err => exact absurd hfc hf
  | data d =>
    cases d with
    | none =>
      rw [stepSku_none fetch sinkOk date_str s sku hfc]
      exact ⟨pace_sleeps _, pace_requestCount _⟩
    | some dd =>
      rw [stepSku_some fetch sinkOk date_str s sku dd hfc]
      by_cases hlen : BATCH_INSERT_SIZE ≤
          (s.batch ++ [prepare_row_data dd date_str sku]).length
      · rw [if_pos hlen, hok s.calls.length, insert_batch_ok]
        exact ⟨pace_sleeps _, pace_requestCount _⟩
      · rw [if_neg hlen]
        exact ⟨pace_sleeps _, pace_requestCount _⟩

theorem expectedSleeps_succ (rc n : Nat) :
    expectedSleeps rc (n + 1) =
      if MAX_REQUESTS_PER_MINUTE ≤ rc + 1 then 60 :: expectedSleeps 0 n
      else REQUEST_DELAY :: expectedSleeps (rc + 1) n := rfl

theorem expectedSleeps_length (n : Nat) :
    ∀ rc : Nat, (expectedSleeps rc n).length = n := by
  induction n with
  | zero => intro rc; rfl
  | succ m ih =>
    intro rc
    unfold expectedSleeps
    split
    · simp [ih]
    · simp [ih]

theorem loop_sleeps (fetch : String → FetchResult) (sinkOk : Nat → Bool)
    (date_str : String) (hok : ∀ i, sinkOk i = true) :
    ∀ (skus : List String) (s : RunState),
      (∀ sku ∈ skus, fetch sku ≠ .err) →
      (skus.foldl (stepSku fetch sinkOk date_str) s).sleeps =
        s.sleeps ++ expectedSleeps s.requestCount skus.length := by
  intro skus
  induction skus with
  | nil =>
    intro s _
    simp [expectedSleeps]
  | cons sku rest ih =>
    intro s hne
    rw [List.foldl_cons]
    have hstep := stepSku_paced fetch sinkOk date_str s sku hok
      (hne sku (List.mem_cons_self sku rest))
    have hrest := ih (stepSku fetch sinkOk date_str s sku)
      (fun x hx => hne x (List.mem_cons_of_mem sku hx))
    rw [hrest, hstep.1, hstep.2]
    show _ = s.sleeps ++ expectedSleeps s.requestCount (rest.length + 1)
    rw [expectedSleeps_succ]
    by_cases hq : MAX_REQUESTS_PER_MINUTE ≤ s.requestCount + 1
    · rw [if_pos hq, if_pos hq, if_pos hq, List.append_assoc]
      rfl
    · rw [if_neg hq, if_neg hq, if_neg hq, List.append_assoc]
      rfl

theorem process_skus_sleeps_eq (fetch : String → FetchResult)
    (sinkOk : Nat → Bool) (date_str : String) (skus : List String) :
    (process_skus fetch sinkOk date_str skus).sleeps =
      (runLoop fetch sinkOk date_str skus).sleeps := by
  unfold process_skus finalFlush
  split
  · rfl
  · split <;> rfl

/-- C9 counterexample: the claim says every identifier — including one
whose fetch errors — is followed by exactly one pacing sleep.  With a
single identifier whose fetch raises, the counter is incremented but the
run performs no pacing sleep at all: the except-continue path skips the
sleep. -/
theorem process_skus_pacing_counterexample :
    (process_skus wFetchErr wSinkOk "2025-05-09" ["1"]).sleeps = [] ∧
    (process_skus wFetchErr wSinkOk "2025-05-09" ["1"]).requestCount = 1 := by
  refine ⟨by decide, by decide⟩

/-- C9 amended: for every identifier whose iteration raises no exception
(fetch returns data or Absent and any triggered flush succeeds), exactly
one pacing sleep follows: 60 time-units with a counter reset when the
incremented counter reaches MAX_REQUESTS_PER_MINUTE, else REQUEST_DELAY;
identifiers whose iteration raises are followed by no sleep.  Over a run
with no raising iteration the sleep trace is exactly one sleep per
identifier. -/
theorem process_skus_pacing (fetch : String → FetchResult)
    (sinkOk : Nat → Bool) (date_str : String) (skus : List String)
    (hne : ∀ sku ∈ skus, fetch sku ≠ .err) (hok : ∀ i, sinkOk i = true) :
    (process_skus fetch sinkOk date_str skus).sleeps =
      expectedSleeps 0 skus.length ∧
    (process_skus fetch sinkOk date_str skus).sleeps.length =
      skus.length := by
  have h := loop_sleeps fetch sinkOk date_str hok skus initState hne
  rw [process_skus_sleeps_eq]
  unfold runLoop
  rw [h]
  show ([] : List Nat) ++ _ = _ ∧ _
  rw [List.nil_append]
  exact ⟨rfl, expectedSleeps_length skus.length 0⟩

/-- Witness for the amended C9: two identifiers with data and a working
sink sleep REQUEST_DELAY twice. -/
theorem process_skus_pacing_witness :
    (process_skus wFetchData wSinkOk "2025-05-09" ["1", "2"]).sleeps =
      [3, 3] := by
  have h := process_skus_pacing wFetchData wSinkOk "2025-05-09" ["1", "2"]
    (fun sku _ => by simp [wFetchData]) (fun i => rfl)
  rw [h.1]
  decide

-- Batching lemmas

theorem isEmpty_true_iff {α : Type} (l : List α) :
    l.isEmpty = true ↔ l = [] := by
  cases l <;> simp

theorem packRows_cons (b : List (List Cell)) (r : List Cell)
    (rs : List (List Cell)) :
    packRows b (r :: rs) =
      if BATCH_INSERT_SIZE ≤ (b ++ [r]).length then
        ((b ++ [r]) :: (packRows [] rs).1, (packRows [] rs).2)
      else packRows (b ++ [r]) rs := rfl

theorem packRows_spec :
    ∀ (rs : List (List Cell)) (b : List (List Cell)),
      b.length < BATCH_INSERT_SIZE →
      ((∀ c ∈ (packRows b rs).1, c.length = BATCH_INSERT_SIZE) ∧
        (packRows b rs).2.length < BATCH_INSERT_SIZE ∧
        (packRows b rs).1.flatten ++ (packRows b rs).2 = b ++ rs) := by
  intro rs
  induction rs with
  | nil =>
    intro b hb
    refine ⟨?_, ?_, ?_⟩
    · intro c hc
      simp [packRows] at hc
    · simpa [packRows] using hb
    · simp [packRows]
  | cons r rest ih =>
    intro b hb
    rw [packRows_cons]
    by_cases hlen : BATCH_INSERT_SIZE ≤ (b ++ [r]).length
    · rw [if_pos hlen]
      have h20 : (b ++ [r]).length = BATCH_INSERT_SIZE := by
        rw [List.length_append, List.length_singleton] at hlen ⊢
        omega
      obtain ⟨ih1, ih2, ih3⟩ := ih []
        (by simp [BATCH_INSERT_SIZE])
      simp only [List.nil_append] at ih3
      refine ⟨?_, ih2, ?_⟩
      · intro c hc
        rcases List.mem_cons.mp hc with hc1 | hc1
        · rw [hc1]
          exact h20
        · exact ih1 c hc1
      · show ((b ++ [r]) :: (packRows [] rest).1).flatten ++
            (packRows [] rest).2 = b ++ (r :: rest)
        rw [List.flatten_cons, List.append_assoc, ih3]
        simp
    · rw [if_neg hlen]
      have hrec := ih (b ++ [r]) (lt_of_not_le hlen)
      rwa [List.append_assoc, List.singleton_append] at hrec

theorem flatten_length_const (n : Nat) :
    ∀ cs : List (List (List Cell)), (∀ c ∈ cs, c.length = n) →
      cs.flatten.length = n * cs.length := by
  intro cs
  induction cs with
  | nil =>
    intro _
    simp
  | cons c rest ih =>
    intro h
    rw [List.flatten_cons, List.length_append,
      h c (List.mem_cons_self c rest),
      ih (fun x hx => h x (List.mem_cons_of_mem c hx)), List.length_cons]
    ring

theorem loop_packs (fetch : String → FetchResult) (sinkOk : Nat → Bool)
    (date_str : String) (hok : ∀ i, sinkOk i = true) :
    ∀ (skus : List String) (s : RunState),
      s.batch.length < BATCH_INSERT_SIZE →
      ((skus.foldl (stepSku fetch sinkOk date_str) s).calls =
          s.calls ++ (packRows s.batch (rowsOf fetch date_str skus)).1.map
            (fun c => (c, true)) ∧
        (skus.foldl (stepSku fetch sinkOk date_str) s).batch =
          (packRows s.batch (rowsOf fetch date_str skus)).2) := by
  intro skus
  induction skus with
  | nil =>
    intro s hb
    constructor
    · simp [rowsOf, packRows]
    · simp [rowsOf, packRows]
  | cons sku rest ih =>
    intro s hb
    rw [List.foldl_cons]
    cases hf : fetch sku with
    | err =>
      rw [stepSku_err fetch sinkOk date_str s sku hf,
        rowsOf_cons_err fetch date_str sku rest hf]
      exact ih _ hb
    | data d =>
      cases d with
      | none =>
        rw [stepSku_none fetch sinkOk date_str s sku hf,
          rowsOf_cons_none fetch date_str sku rest hf]
        have hconc := ih (pace { s with requestCount := s.requestCount + 1 })
          (by rw [pace_batch]; exact hb)
        rw [pace_batch, pace_calls] at hconc
        exact hconc
      | some dd =>
        rw [stepSku_some fetch sinkOk date_str s sku dd hf,
          rowsOf_cons_some fetch date_str sku rest dd hf,
          packRows_cons]
        by_cases hlen : BATCH_INSERT_SIZE ≤
            (s.batch ++ [prepare_row_data dd date_str sku]).length
        · rw [if_pos hlen, if_pos hlen, hok s.calls.length, insert_batch_ok]
          dsimp only
          have hconc := ih
            (pace { s with
                     requestCount := s.requestCount + 1,
                     batch := [],
                     calls := s.calls ++
                       [(s.batch ++ [prepare_row_data dd date_str sku],
                         true)] })
            (by rw [pace_batch]; simp [BATCH_INSERT_SIZE])
          rw [pace_batch, pace_calls] at hconc
          constructor
          · rw [hconc.1]
            show (s.calls ++ [(s.batch ++ [prepare_row_data dd date_str sku],
                true)]) ++ _ = _
            rw [List.map_cons, List.append_assoc]
            rfl
          · exact hconc.2
        · rw [if_neg hlen, if_neg hlen]
          have hconc := ih
            (pace { s with
                     requestCount := s.requestCount + 1,
                     batch := s.batch ++
                       [prepare_row_data dd date_str sku] })
            (by rw [pace_batch]; exact lt_of_not_le hlen)
          rw [pace_batch, pace_calls] at hconc
          exact hconc

theorem process_skus_calls_ok (fetch : String → FetchResult)
    (sinkOk : Nat → Bool) (date_str : String) (skus : List String)
    (hok : ∀ i, sinkOk i = true) :
    (process_skus fetch sinkOk date_str skus).calls =
      (packRows [] (rowsOf fetch date_str skus)).1.map (fun c => (c, true))
        ++ (if (packRows [] (rowsOf fetch date_str skus)).2.isEmpty then []
          else [((packRows [] (rowsOf fetch date_str skus)).2, true)]) ∧
    (process_skus fetch sinkOk date_str skus).completed = true := by
  have hloop := loop_packs fetch sinkOk date_str hok skus initState
    (by simp [initState, BATCH_INSERT_SIZE])
  have hcalls : (runLoop fetch sinkOk date_str skus).calls =
      (packRows [] (rowsOf fetch date_str skus)).1.map
        (fun c => (c, true)) := by
    have h1 := hloop.1
    simpa [runLoop, initState] using h1
  have hbatch : (runLoop fetch sinkOk date_str skus).batch =
      (packRows [] (rowsOf fetch date_str skus)).2 := by
    have h2 := hloop.2
    simpa [runLoop, initState] using h2
  unfold process_skus finalFlush
  rw [hok (runLoop fetch sinkOk date_str skus).calls.length, insert_batch_ok]
  by_cases hemp : (runLoop fetch sinkOk date_str skus).batch.isEmpty = true
  · rw [if_pos hemp]
    have hfb : (packRows [] (rowsOf fetch date_str skus)).2.isEmpty = true := by
      rw [← hbatch]
      exact hemp
    rw [hfb]
    constructor
    · show (runLoop fetch sinkOk date_str skus).calls = _
      rw [hcalls]
      simp
    · rfl
  · rw [if_neg hemp]
    have hfb : (packRows [] (rowsOf fetch date_str skus)).2.isEmpty = false := by
      rw [← hbatch]
      exact Bool.eq_false_iff.mpr hemp
    rw [hfb]
    constructor
    · show (runLoop fetch sinkOk date_str skus).calls ++
          [((runLoop fetch sinkOk date_str skus).batch, true)] = _
      rw [hcalls, hbatch]
      rfl
    · rfl

/-- C1: with a working sink, for every fetch environment — in particular
one where any single identifier raises, even after exhausted retries —
process_skus returns normally (the per-identifier handler logs and
continues) and the sink receives exactly the rows of every identifier
whose fetch returned data, in order. -/
theorem process_skus_partial_failure_isolation (fetch : String → FetchResult)
    (sinkOk : Nat → Bool) (date_str : String) (skus : List String)
    (hok : ∀ i, sinkOk i = true) :
    (process_skus fetch sinkOk date_str skus).completed = true ∧
    ((process_skus fetch sinkOk date_str skus).calls.map Prod.fst).flatten =
      rowsOf fetch date_str skus := by
  obtain ⟨hcalls, hdone⟩ :=
    process_skus_calls_ok fetch sinkOk date_str skus hok
  obtain ⟨hp1, hp2, hp3⟩ := packRows_spec (rowsOf fetch date_str skus) []
    (by simp [BATCH_INSERT_SIZE])
  simp only [List.nil_append] at hp3
  refine ⟨hdone, ?_⟩
  rw [hcalls, List.map_append, List.map_map, List.flatten_append,
    show (Prod.fst ∘ fun c : List (List Cell) => (c, true)) = id from rfl,
    List.map_id]
  by_cases hfb : (packRows [] (rowsOf fetch date_str skus)).2.isEmpty = true
  · rw [if_pos hfb]
    have hnil : (packRows [] (rowsOf fetch date_str skus)).2 = [] :=
      (isEmpty_true_iff _).mp hfb
    rw [hnil, List.append_nil] at hp3
    simpa using hp3
  · rw [if_neg hfb]
    simpa using hp3

/-- Witness for C1: three identifiers, the middle one always raising, with
a working sink: the run completes and exactly the first and third rows
reach the sink. -/
theorem process_skus_partial_failure_isolation_witness :
    (process_skus wFetchA wSinkOk "2025-05-09" ["11", "22", "33"]).completed
      = true ∧
    ((process_skus wFetchA wSinkOk "2025-05-09"
        ["11", "22", "33"]).calls.map Prod.fst).flatten =
      [prepare_row_data wItem "2025-05-09" "11",
       prepare_row_data wItem "2025-05-09" "33"] := by
  have h := process_skus_partial_failure_isolation wFetchA wSinkOk
    "2025-05-09" ["11", "22", "33"] (fun i => rfl)
  refine ⟨h.1, ?_⟩
  rw [h.2]
  decide

/-- C6: with a working sink, the sink receives only non-empty bulk calls,
every non-final call holds exactly BATCH_INSERT_SIZE = 20 rows, every call
holds at most 20 rows, the number of calls is one per full batch plus one
for a non-empty remainder, and concatenating the calls reproduces exactly
the produced rows. -/
theorem process_skus_batching (fetch : String → FetchResult)
    (sinkOk : Nat → Bool) (date_str : String) (skus : List String)
    (hok : ∀ i, sinkOk i = true) :
    (∀ c ∈ (process_skus fetch sinkOk date_str skus).calls,
      c.1 ≠ [] ∧ c.1.length ≤ BATCH_INSERT_SIZE ∧ c.2 = true) ∧
    (∀ c ∈ (process_skus fetch sinkOk date_str skus).calls.dropLast,
      c.1.length = BATCH_INSERT_SIZE) ∧
    (process_skus fetch sinkOk date_str skus).calls.length =
      (rowsOf fetch date_str skus).length / BATCH_INSERT_SIZE +
      (if (rowsOf fetch date_str skus).length % BATCH_INSERT_SIZE = 0 then 0
        else 1) ∧
    ((process_skus fetch sinkOk date_str skus).calls.map Prod.fst).flatten =
      rowsOf fetch date_str skus := by
  obtain ⟨hcalls, hdone⟩ :=
    process_skus_calls_ok fetch sinkOk date_str skus hok
  obtain ⟨hp1, hp2, hp3⟩ := packRows_spec (rowsOf fetch date_str skus) []
    (by simp [BATCH_INSERT_SIZE])
  simp only [List.nil_append] at hp3
  have hlen20 : (packRows [] (rowsOf fetch date_str skus)).1.flatten.length =
      BATCH_INSERT_SIZE * (packRows [] (rowsOf fetch date_str skus)).1.length :=
    flatten_length_const BATCH_INSERT_SIZE _ hp1
  have hlensum : BATCH_INSERT_SIZE *
        (packRows [] (rowsOf fetch date_str skus)).1.length +
        (packRows [] (rowsOf fetch date_str skus)).2.length =
      (rowsOf fetch date_str skus).length := by
    have hcong := congrArg List.length hp3
    rw [List.length_append, hlen20] at hcong
    exact hcong
  have hdiv : (packRows [] (rowsOf fetch date_str skus)).1.length =
      (rowsOf fetch date_str skus).length / BATCH_INSERT_SIZE ∧
      (packRows [] (rowsOf fetch date_str skus)).2.length =
      (rowsOf fetch date_str skus).length % BATCH_INSERT_SIZE := by
    simp only [BATCH_INSERT_SIZE] at hlensum hp2 ⊢
    omega
  refine ⟨?_, ?_, ?_, ?_⟩
  · intro c hc
    rw [hcalls] at hc
    rcases List.mem_append.mp hc with hc1 | hc1
    · obtain ⟨c1, hc1m, hc1e⟩ := List.mem_map.mp hc1
      have hl := hp1 c1 hc1m
      subst hc1e
      refine ⟨?_, le_of_eq hl, rfl⟩
      intro hnil
      have hnil2 : c1 = [] := hnil
      rw [hnil2] at hl
      simp [BATCH_INSERT_SIZE] at hl
    · by_cases hfb : (packRows []
          (rowsOf fetch date_str skus)).2.isEmpty = true
      · rw [if_pos hfb] at hc1
        simp at hc1
      · rw [if_neg hfb] at hc1
        have hce : c = ((packRows [] (rowsOf fetch date_str skus)).2,
            true) := by
          simpa using hc1
        subst hce
        refine ⟨?_, le_of_lt hp2, rfl⟩
        intro hnil
        have hnil2 : (packRows [] (rowsOf fetch date_str skus)).2 = [] := hnil
        exact hfb (by rw [hnil2]; rfl)
  · intro c hc
    rw [hcalls] at hc
    by_cases hfb : (packRows [] (rowsOf fetch date_str skus)).2.isEmpty = true
    · rw [if_pos hfb, List.append_nil] at hc
      have hc2 : c ∈ (packRows [] (rowsOf fetch date_str skus)).1.map
          (fun c => (c, true)) :=
        List.Sublist.subset (List.dropLast_sublist _) hc
      obtain ⟨c1, hc1m, hc1e⟩ := List.mem_map.mp hc2
      subst hc1e
      exact hp1 c1 hc1m
    · rw [if_neg hfb] at hc
      have hdl : ((packRows [] (rowsOf fetch date_str skus)).1.map
            (fun c => (c, true)) ++
          [((packRows [] (rowsOf fetch date_str skus)).2, true)]).dropLast =
          (packRows [] (rowsOf fetch date_str skus)).1.map
            (fun c => (c, true)) := by
        simp
      rw [hdl] at hc
      obtain ⟨c1, hc1m, hc1e⟩ := List.mem_map.mp hc
      subst hc1e
      exact hp1 c1 hc1m
  · rw [hcalls, List.length_append, List.length_map]
    by_cases hfb : (packRows [] (rowsOf fetch date_str skus)).2.isEmpty = true
    · have hnil : (packRows [] (rowsOf fetch date_str skus)).2 = [] :=
        (isEmpty_true_iff _).mp hfb
      have hz : (rowsOf fetch date_str skus).length % BATCH_INSERT_SIZE = 0 := by
        rw [← hdiv.2, hnil]
        rfl
      rw [if_pos hfb, if_pos hz, hdiv.1]
      simp
    · have hnnil : (packRows [] (rowsOf fetch date_str skus)).2 ≠ [] := by
        intro hnil
        exact hfb (by rw [hnil]; rfl)
      have hz : (rowsOf fetch date_str skus).length % BATCH_INSERT_SIZE ≠ 0 := by
        rw [← hdiv.2]
        intro hzl
        exact hnnil (List.eq_nil_of_length_eq_zero hzl)
      rw [if_neg hfb, if_neg hz, hdiv.1]
      rfl
  · rw [hcalls, List.map_append, List.map_map, List.flatten_append,
      show (Prod.fst ∘ fun c : List (List Cell) => (c, true)) = id from rfl,
      List.map_id]
    by_cases hfb : (packRows [] (rowsOf fetch date_str skus)).2.isEmpty = true
    · rw [if_pos hfb]
      have hnil : (packRows [] (rowsOf fetch date_str skus)).2 = [] :=
        (isEmpty_true_iff _).mp hfb
      rw [hnil, List.append_nil] at hp3
      simpa using hp3
    · rw [if_neg hfb]
      simpa using hp3

/-- Witness for C6: twenty-one identifiers with data and a working sink
give exactly two sink calls whose concatenation is the 21 rows. -/
theorem process_skus_batching_witness :
    (process_skus wFetchData wSinkOk "2025-05-09" skus21).calls.length = 2 ∧
    ((process_skus wFetchData wSinkOk "2025-05-09" skus21).calls.map
      Prod.fst).flatten = rowsOf wFetchData "2025-05-09" skus21 := by
  have h := process_skus_batching wFetchData wSinkOk "2025-05-09" skus21
    (fun i => rfl)
  refine ⟨?_, h.2.2.2⟩
  rw [h.2.2.1]
  decide

-- C7 lemmas and theorems

theorem insert_batch_fail (b : List (List Cell)) (hb : b ≠ []) :
    insert_batch_to_sheet false b = .error () := by
  have hbe : b.isEmpty = false := by
    cases b with
    | nil => exact absurd rfl hb
    | cons x xs => rfl
  unfold insert_batch_to_sheet
  rw [hbe]
  rfl

/-- C7 counterexample: the claim says rows buffered at a failed bulk write
are lost.  With 21 identifiers and a sink whose first call raises, the
first (failed) call carries 20 rows, the per-identifier handler keeps them
buffered, and the second call delivers all 21 rows — the 20 rows of the
failed call are re-sent, not lost, and the run completes. -/
theorem process_skus_sink_failure_counterexample :
    ((process_skus wFetchData wSinkFail0 "2025-05-09" skus21).calls.map
      (fun c => (c.1.length, c.2))) = [(20, false), (21, true)] ∧
    ((process_skus wFetchData wSinkFail0 "2025-05-09" skus21).calls.getD 1
        ([], false)).1 =
      ((process_skus wFetchData wSinkFail0 "2025-05-09" skus21).calls.getD 0
        ([], false)).1 ++ [prepare_row_data wItem "2025-05-09" "21"] ∧
    (process_skus wFetchData wSinkFail0 "2025-05-09" skus21).completed =
      true := by
  refine ⟨by decide, by decide, by decide⟩

/-- C7 amended: insert_batch_to_sheet re-raises a failed bulk write to its
caller; inside the loop that exception is caught by the per-identifier
handler and the buffered rows stay in the batch (they are re-sent by the
next flush), while a failure of the final drain flush propagates out of
process_skus, which then does not complete — only those rows are dropped. -/
theorem process_skus_sink_failure (b : List (List Cell))
    (fetch : String → FetchResult) (sinkOk : Nat → Bool)
    (date_str sku : String) (s : RunState) (d : ItemData)
    (hb : b ≠ [])
    (hfd : fetch sku = .data (some d))
    (hlen : BATCH_INSERT_SIZE ≤
      (s.batch ++ [prepare_row_data d date_str sku]).length)
    (hfail : sinkOk s.calls.length = false) :
    insert_batch_to_sheet false b = .error () ∧
    (stepSku fetch sinkOk date_str s sku).batch =
      s.batch ++ [prepare_row_data d date_str sku] ∧
    (stepSku fetch sinkOk date_str s sku).calls =
      s.calls ++ [(s.batch ++ [prepare_row_data d date_str sku], false)] ∧
    (∀ skus : List String,
      (runLoop fetch sinkOk date_str skus).batch ≠ [] →
      sinkOk (runLoop fetch sinkOk date_str skus).calls.length = false →
      (process_skus fetch sinkOk date_str skus).completed = false) := by
  have hstep := stepSku_some fetch sinkOk date_str s sku d hfd
  rw [if_pos hlen, hfail,
    insert_batch_fail _ (by simp)] at hstep
  refine ⟨insert_batch_fail b hb, ?_, ?_, ?_⟩
  · rw [hstep]
  · rw [hstep]
  · intro skus h1 h2
    unfold process_skus finalFlush
    rw [if_neg (by
      intro hc
      exact h1 ((isEmpty_true_iff _).mp hc)), h2,
      insert_batch_fail _ h1]

/-- Witness for the amended C7: a failing sink makes insert_batch raise; a
step from a 19-row batch with a failing sink keeps all 20 rows buffered
and records the failed call; and a run whose final flush fails does not
complete. -/
theorem process_skus_sink_failure_witness :
    insert_batch_to_sheet false [prepare_row_data wItem "2025-05-09" "1"] =
      .error () ∧
    (stepSku wFetchData wSinkFail0 "2025-05-09" s19 "1").batch =
      s19.batch ++ [prepare_row_data wItem "2025-05-09" "1"] ∧
    (process_skus wFetchData wSinkFail0 "2025-05-09" ["1"]).completed =
      false := by
  have h := process_skus_sink_failure
    [prepare_row_data wItem "2025-05-09" "1"] wFetchData wSinkFail0
    "2025-05-09" "1" s19 wItem (by decide) rfl (by decide) rfl
  exact ⟨h.1, h.2.1, h.2.2.2 ["1"] (by decide) (by decide)⟩

end Mpstats
